import Mathlib

/-
Verification of the COVID19_MA_Gov_Data_Pull batch ETL job (src/main.py).

The embedding below models the pure computational core of the program:
column-name sanitization (process_cols), fuzzy tab-name matching
(levenshtein_dist_ok), the numeric-cast heuristic (count_float_ratio and
count_int_ratio, modeled exactly at two decimal places by integer
percentages), and the control flow of the daily and weekly upload loops
(sheet iteration, the per-relation retry loop, the status dictionary and
the end-of-run summary).

Python strings are modeled as lists of characters.  Spreadsheet cells are
modeled by the Cell type: a Python str, int, float, or NaN (the pandas
missing marker, which is a float instance in Python).  Decimal rounding
(round(x, 2)) is modeled exactly over the rationals, carried as integer
percentages so that every definition evaluates by kernel reduction.
Network, pandas parsing and the BigQuery client are external collaborators
and enter the model as oracle functions describing their outcomes.
-/

namespace CovidETL

abbrev PyStr := List Char

/-- Python str lists are compared and scanned character by character. -/
def isPrefixOfChars : PyStr → PyStr → Bool
  | [], _ => true
  | _ :: _, [] => false
  | p :: ps, c :: cs => if p = c then isPrefixOfChars ps cs else false

/-- Python substring membership test, pat in s. -/
def containsSub (pat : PyStr) : PyStr → Bool
  | [] => pat.isEmpty
  | c :: cs => isPrefixOfChars pat (c :: cs) || containsSub pat cs

/-- Worker for Python str.replace: leftmost, non-overlapping replacement of
every occurrence of pat by rep.  The first numeric argument counts
characters still covered by the occurrence just replaced, so the recursion
is structural on the scanned string. -/
def replaceSubGo (pat rep : PyStr) : Nat → PyStr → PyStr
  | _, [] => []
  | skip + 1, _ :: cs => replaceSubGo pat rep skip cs
  | 0, c :: cs =>
    if !pat.isEmpty && isPrefixOfChars pat (c :: cs) then
      rep ++ replaceSubGo pat rep (pat.length - 1) cs
    else
      c :: replaceSubGo pat rep 0 cs

/-- Python str.replace(pat, rep) for a non-empty pattern. -/
def replaceSub (pat rep s : PyStr) : PyStr :=
  replaceSubGo pat rep 0 s

/-- Python re.search(starts-with-digit, col): the name begins with a digit. -/
def startsWithDigit : PyStr → Bool
  | [] => false
  | c :: _ => c.isDigit

/-
Module-level configuration constants of src/main.py.
-/

/-- Characters rewritten to underscore by the sanitizer (main.py line 32). -/
def col_chars_underscore_list : List Char := [' ', '/', '-']

/-- Characters deleted by the sanitizer (main.py line 33). -/
def col_chars_eliminate_list : List Char := ['(', ')', '*', '.', '=']

/-- Default fuzzy-match tolerance ratio, 0.1 (main.py line 29), written as a
reduced rational literal so that its numerator and denominator reduce in the
kernel. -/
def tolerable_levenshtein_ratio : Rat := ⟨1, 10, by decide, Nat.coprime_one_left 10⟩

/-- Unused module constant min_number_ratio_convert = 0.5 (main.py line 35);
the main loop hardcodes the 0.5 threshold instead of reading it. -/
def min_number_ratio_convert : Rat := ⟨1, 2, by decide, Nat.coprime_one_left 2⟩

/-- Upload attempt budget (main.py line 41). -/
def total_upload_attempts : Nat := 5

/-- The literal 100000 searched for by the sanitizer. -/
def pat_100000 : PyStr := ('1' :: ['0', '0', '0', '0', '0'])

/-- The literal 1000000 that suppresses the 100k rewrite. -/
def pat_1000000 : PyStr := ('1' :: ['0', '0', '0', '0', '0', '0'])

/-- The replacement text 100k. -/
def rep_100k : PyStr := ('1' :: ['0', '0', 'k'])

/-- Sanitization of a single column name, exactly as process_cols performs it
(main.py lines 51 to 69).  Note that the 100000-to-100k rewrite on line 58
assigns from the original name col, discarding the digit prefix underscore
added on line 55. -/
def process_col (col : PyStr) : PyStr :=
  let renamed1 := if startsWithDigit col then '_' :: col else col
  let renamed2 :=
    if containsSub pat_100000 col && !containsSub pat_1000000 col then
      replaceSub pat_100000 rep_100k col
    else renamed1
  let renamed3 := col_chars_underscore_list.foldl (fun s ch => replaceSub [ch] ['_'] s) renamed2
  col_chars_eliminate_list.foldl (fun s ch => replaceSub [ch] [] s) renamed3

/-
Fuzzy sheet-name matching.
-/

/-- Fuel-indexed Levenshtein distance: the mathematical edit distance
computed by the external Levenshtein.distance library call.  Fuel is the sum
of the lengths, which bounds the recursion depth. -/
def distGo : Nat → PyStr → PyStr → Nat
  | 0, s, t => s.length + t.length
  | _ + 1, [], t => t.length
  | _ + 1, s, [] => s.length
  | fuel + 1, a :: s, b :: t =>
    if a = b then distGo fuel s t
    else 1 + min (distGo fuel (a :: s) t) (min (distGo fuel s (b :: t)) (distGo fuel s t))

/-- Levenshtein edit distance between two character lists. -/
def distance (s t : PyStr) : Nat :=
  distGo (s.length + t.length) s t

/-- Case folding plus space stripping applied to both names before the
distance comparison: str.lower().replace(space, empty). -/
def processedName (s : PyStr) : PyStr :=
  replaceSub [' '] [] (s.map Char.toLower)

/-- Ceiling of n times a rational ratio, computed as exact integer
arithmetic: math.ceil applied to len(str_1) * tolerable_levenshtein_ratio. -/
def ceilMul (n : Nat) (r : Rat) : Int :=
  -((-((n : Int) * r.num)) / (r.den : Int))

/-- The matcher levenshtein_dist_ok of main.py lines 72 to 79: accepts when
the distance between the case-folded, space-stripped names is at most
ceil(len(str_1) * ratio).  The threshold length is taken from the FIRST
argument, which at both call sites is the actual tab name. -/
def levenshtein_dist_ok (str_1 str_2 : PyStr) (ratio : Rat) : Bool :=
  decide ((distance (processedName str_1) (processedName str_2) : Int) ≤ ceilMul str_1.length ratio)

/-- The matcher as claim C1 words it, with the threshold computed from the
length of the canonical TARGET name (the second argument at the call sites)
instead of the actual tab name.  Declared only to be compared against
levenshtein_dist_ok. -/
def levenshtein_dist_ok_claim (str_1 str_2 : PyStr) (ratio : Rat) : Bool :=
  decide ((distance (processedName str_1) (processedName str_2) : Int) ≤ ceilMul str_2.length ratio)

/-
Cells and the numeric-cast heuristic.
-/

/-- A spreadsheet cell as pandas hands it to the helper loops: a Python
str, int, float, or NaN (missing; NaN is itself a float instance). -/
inductive Cell where
  | str (s : PyStr)
  | intVal (n : Int)
  | floatVal (q : Rat)
  | nan
deriving DecidableEq

/-- Python isinstance(cell, float): float values and NaN. -/
def isFloatInst : Cell → Bool
  | Cell.floatVal _ => true
  | Cell.nan => true
  | _ => false

/-- Python isinstance(cell, int). -/
def isIntInst : Cell → Bool
  | Cell.intVal _ => true
  | _ => false

/-- Decision round(counter / len(col), 2) >= 0.5 of the numeric-cast loop,
modeled extensionally over the CPython float semantics: the quotient is the
IEEE double nearest counter/len, and round applies correctly-rounded
decimal rounding to that double.  The 0.5 bound is crossed exactly above
the rational 0.495 = 99/200; that midpoint is not a dyadic rational, so it
is never itself a double, and its nearest double lies below it, hence the
exact tie 200 * counter = 99 * len does NOT cast (round(99/200, 2) is 0.49
in CPython).  For every column length a spreadsheet can reach (far below
2 to the 46, where half an ulp of the quotient would overtake the
1/(200 * len) margin) the double quotient exceeds 0.495 exactly when
200 * counter > 99 * len, so the decision is that strict integer
comparison. -/
def ratio_round2_ge_half (counter len : Nat) : Bool :=
  decide (99 * len < 200 * counter)

/-- count_float_ratio of main.py lines 82 to 88 compared against 0.5: the
counter includes every cell that is a float instance, NaN included, and
the denominator is the total number of cells. -/
def count_float_ratio_ge_half (col : List Cell) : Bool :=
  ratio_round2_ge_half (col.filter fun c => isFloatInst c).length col.length

/-- count_int_ratio of main.py lines 90 to 96 compared against 0.5. -/
def count_int_ratio_ge_half (col : List Cell) : Bool :=
  ratio_round2_ge_half (col.filter fun c => isIntInst c).length col.length

/-- Digit-string value, used by the model of pd.to_numeric string parsing. -/
def digitsValAux : PyStr → Nat → Option Nat
  | [], acc => some acc
  | c :: cs, acc =>
    if c.isDigit then digitsValAux cs (acc * 10 + (c.toNat - 48)) else none

/-- Value of a non-empty all-digit string. -/
def digitsVal (s : PyStr) : Option Nat :=
  if s.isEmpty then none else digitsValAux s 0

/-- Optional leading minus sign. -/
def splitSign : PyStr → Bool × PyStr
  | '-' :: cs => (true, cs)
  | cs => (false, cs)

/-- Rational value of a decimal literal with k fractional digits. -/
def mkFloatQ (neg : Bool) (ip fp : Nat) (k : Nat) : Rat :=
  let q : Rat := (ip : Rat) + (fp : Rat) / ((10 : Rat) ^ k)
  if neg then -q else q

/-- Model of pd.to_numeric string parsing: an integer literal becomes an
int, a decimal literal becomes a float, anything else fails. -/
def parseNumCell (s : PyStr) : Option Cell :=
  match (splitSign s).2.dropWhile (fun c => c ≠ '.') with
  | [] =>
    match digitsVal ((splitSign s).2.takeWhile fun c => c ≠ '.') with
    | some n => some (Cell.intVal (if (splitSign s).1 then -(n : Int) else (n : Int)))
    | none => none
  | _ :: fp =>
    match digitsVal ((splitSign s).2.takeWhile fun c => c ≠ '.'), digitsVal fp with
    | some n, some m => some (Cell.floatVal (mkFloatQ (splitSign s).1 n m fp.length))
    | _, _ => none

/-- pd.to_numeric(col, errors = coerce) applied to one cell: numbers pass
through, parseable strings become numbers, anything else becomes NaN. -/
def to_numeric_cell : Cell → Cell
  | Cell.str s =>
    match parseNumCell s with
    | some v => v
    | none => Cell.nan
  | c => c

/-- The per-column numeric-cast loop of main.py lines 187 to 191: the column
is coerced if the rounded ratio of float instances among its cells reaches
0.5, and then again, on the possibly updated column, if the rounded ratio
of int instances reaches 0.5. -/
def normalize_cells (cells : List Cell) : List Cell :=
  let c1 := if count_float_ratio_ge_half cells then cells.map to_numeric_cell else cells
  if count_int_ratio_ge_half c1 then c1.map to_numeric_cell else c1

/-- The float-rule cast condition as claim C5 words it: at least half of the
NON-MISSING cells are floating-point values.  Declared only to be compared
against the source heuristic. -/
def claim_float_cast_cond (cells : List Cell) : Bool :=
  let nm := cells.filter fun c => c ≠ Cell.nan
  decide (nm.length ≤ 2 * (nm.filter fun c => isFloatInst c).length)

/-- The int-rule cast condition as claim C5 words it: at least half of the
NON-MISSING cells are integers. -/
def claim_int_cast_cond (cells : List Cell) : Bool :=
  let nm := cells.filter fun c => c ≠ Cell.nan
  decide (nm.length ≤ 2 * (nm.filter fun c => isIntInst c).length)

/-
Tables and the normalizer.
-/

/-- A dataframe: ordered named columns of cells. -/
abbrev Table := List (PyStr × List Cell)

/-- process_cols applied to a dataframe: every column name sanitized. -/
def process_cols (df : Table) : Table :=
  df.map fun p => (process_col p.1, p.2)

/-- The full per-tab normalization of main.py lines 185 to 191: sanitize
the column names, then run the numeric-cast heuristic on every column. -/
def normalize_df (df : Table) : Table :=
  (process_cols df).map fun p => (p.1, normalize_cells p.2)

/-
The upload retry loop (main.py lines 200 to 222 and 287 to 309).

The BigQuery client is an external collaborator; its behavior enters the
model as an oracle mapping the attempt number and the dataframe being
uploaded to one of four outcomes.
-/

/-- Outcome of one load_table_from_dataframe call. -/
inductive UpOutcome where
  | success
  | arrowMatch (col : PyStr)
  | arrowOther
  | otherErr
deriving DecidableEq

/-- df[col] = df[col].astype(str): every cell of the named column rendered
as its Python string form (NaN renders as the three letters nan). -/
def cellToStr : Cell → Cell
  | Cell.str s => Cell.str s
  | Cell.intVal n => Cell.str (toString n).toList
  | Cell.floatVal q => Cell.str (toString q).toList
  | Cell.nan => Cell.str ('n' :: ['a', 'n'])

/-- In-place string cast of one column of the dataframe. -/
def castColStr (col : PyStr) (df : Table) : Table :=
  df.map fun p => if p.1 = col then (p.1, p.2.map cellToStr) else p

/-- Result of running the attempt loop for one relation: the final
dataframe (casts mutate it in place), the last value assigned to the
status dictionary if any, whether an uncaught exception escaped the loop,
the dataframe passed to each attempt in order, and the columns cast. -/
structure LoopOut where
  df : Table
  statusSet : Option Nat
  crashed : Bool
  dfs : List Table
  casts : List PyStr
deriving DecidableEq

/-- Fuel-indexed attempt loop, fuel being the attempts remaining.  On
success the status is set to 1 and the loop breaks, except that success on
the final attempt then evaluates the misplaced failure print, whose
reference to the unbound name e raises NameError (the except-clause
variable is deleted when the clause exits): that is recorded as a crash.
An ArrowTypeError sets the status to 0, casts the reported column when the
message matches the bytes-vs-int pattern, and continues; any other
exception is uncaught and escapes the loop. -/
def uploadLoopGo (beh : Nat → Table → UpOutcome) : Nat → Nat → Table → LoopOut
  | 0, _, df => ⟨df, none, false, [], []⟩
  | fuel + 1, attempt, df =>
    match beh attempt df with
    | UpOutcome.success => ⟨df, some 1, attempt = total_upload_attempts, [df], []⟩
    | UpOutcome.arrowMatch col =>
      let out := uploadLoopGo beh fuel (attempt + 1) (castColStr col df)
      ⟨out.df, match out.statusSet with | some v => some v | none => some 0,
        out.crashed, df :: out.dfs, col :: out.casts⟩
    | UpOutcome.arrowOther =>
      let out := uploadLoopGo beh fuel (attempt + 1) df
      ⟨out.df, match out.statusSet with | some v => some v | none => some 0,
        out.crashed, df :: out.dfs, out.casts⟩
    | UpOutcome.otherErr => ⟨df, none, true, [df], []⟩

/-- The for attempt in range(1, total_upload_attempts + 1) loop. -/
def uploadLoop (beh : Nat → Table → UpOutcome) (df : Table) : LoopOut :=
  uploadLoopGo beh total_upload_attempts 1 df

/-
The per-sheet and per-target control flow of main.
-/

/-- One completed upload-loop invocation, for the run trace. -/
structure UploadRec where
  relation : PyStr
  dfs : List Table
  casts : List PyStr
deriving DecidableEq

/-- Python dict assignment d[k] = v on an insertion-ordered dictionary. -/
def dictSet (d : List (PyStr × Nat)) (k : PyStr) (v : Nat) : List (PyStr × Nat) :=
  if d.any fun p => p.1 = k then
    d.map fun p => if p.1 = k then (k, v) else p
  else
    d ++ [(k, v)]

/-- Dictionary lookup. -/
def dictGet (d : List (PyStr × Nat)) (k : PyStr) : Option Nat :=
  match d with
  | [] => none
  | p :: rest => if p.1 = k then some p.2 else dictGet rest k

/-- Mutable state threaded through a phase: the status dictionary, the df
variable (none while still unbound), and the trace of completed upload
loops. -/
structure RunSt where
  status : List (PyStr × Nat)
  dfReg : Option Table
  uploads : List UploadRec
deriving DecidableEq

/-- A phase step either continues normally or aborts the whole run with an
uncaught exception. -/
inductive StepRes where
  | ok (st : RunSt)
  | crash (st : RunSt)
deriving DecidableEq

/-- The state carried by either outcome. -/
def stOf : StepRes → RunSt
  | StepRes.ok st => st
  | StepRes.crash st => st

/-- Run the retry loop for one matched target and fold its effects into the
run state. -/
def runUpload (uBeh : PyStr → Nat → Table → UpOutcome) (tgt rel : PyStr)
    (df : Table) (status : List (PyStr × Nat)) (ups : List UploadRec) : StepRes :=
  let lo := uploadLoop (uBeh rel) df
  let status2 :=
    match lo.statusSet with
    | none => status
    | some v => dictSet status tgt v
  let st2 : RunSt := ⟨status2, some lo.df, ups ++ [⟨rel, lo.dfs, lo.casts⟩]⟩
  if lo.crashed then StepRes.crash st2 else StepRes.ok st2

/-- Outcome of the try block (parse, process_cols, cast loop) for one
matched tab.  With ok the whole block completed and the df variable holds
the normalized frame.  With parseFail the parse call itself raised, so the
df variable is untouched.  With processFail the exception came after df
was rebound to the parsed frame on line 182, so at the raise the df
variable holds the current, partially processed frame of THIS tab; the
oracle supplies that frame, since how far process_cols and the cast loop
got before raising is external behavior. -/
inductive ParseOutcome where
  | ok (raw : Table)
  | parseFail
  | processFail (cur : Table)
deriving DecidableEq

/-- The inner for tgt_tab, bq_relation loop for one actual tab.  In the
weekly variant an inexact accepted match at verbosity 1 or more evaluates
the diagnostic print of line 266, whose names sheet_name and
actual_sheet_name are unbound, raising NameError.
A try-block failure in the weekly variant records status 0 and continues
to the next target, while the daily variant records status 0 and falls
through to the upload with whatever the df variable holds: after a
parseFail that is the previous frame, or an unbound name raising NameError
when no tab was processed before; after a processFail it is the current
partially processed frame, which also remains bound for later targets.
There is no break after a successful match, so every further matching
target is processed as well. -/
def runTargets (weekly : Bool) (verbose : Nat) (parseRes : ParseOutcome) (act : PyStr)
    (uBeh : PyStr → Nat → Table → UpOutcome) :
    List (PyStr × PyStr) → RunSt → StepRes
  | [], st => StepRes.ok st
  | (tgt, rel) :: rest, st =>
    if levenshtein_dist_ok act tgt tolerable_levenshtein_ratio then
      if weekly = true ∧ act ≠ tgt ∧ 1 ≤ verbose then StepRes.crash st
      else
        match parseRes with
        | ParseOutcome.ok raw =>
          match runUpload uBeh tgt rel (normalize_df raw) st.status st.uploads with
          | StepRes.crash st2 => StepRes.crash st2
          | StepRes.ok st2 => runTargets weekly verbose parseRes act uBeh rest st2
        | ParseOutcome.parseFail =>
          let status2 := dictSet st.status tgt 0
          if weekly then
            runTargets weekly verbose parseRes act uBeh rest ⟨status2, st.dfReg, st.uploads⟩
          else
            match st.dfReg with
            | none => StepRes.crash ⟨status2, none, st.uploads⟩
            | some d =>
              match runUpload uBeh tgt rel d status2 st.uploads with
              | StepRes.crash st2 => StepRes.crash st2
              | StepRes.ok st2 => runTargets weekly verbose parseRes act uBeh rest st2
        | ParseOutcome.processFail cur =>
          let status2 := dictSet st.status tgt 0
          if weekly then
            runTargets weekly verbose parseRes act uBeh rest ⟨status2, some cur, st.uploads⟩
          else
            match runUpload uBeh tgt rel cur status2 st.uploads with
            | StepRes.crash st2 => StepRes.crash st2
            | StepRes.ok st2 => runTargets weekly verbose parseRes act uBeh rest st2
    else runTargets weekly verbose parseRes act uBeh rest st

/-- The outer for index, act_tab loop: sheets in order, an uncaught
exception aborting everything that remains. -/
def runSheets (weekly : Bool) (verbose : Nat) (mapping : List (PyStr × PyStr))
    (parseBeh : Nat → ParseOutcome) (uBeh : PyStr → Nat → Table → UpOutcome) :
    List PyStr → Nat → RunSt → StepRes
  | [], _, st => StepRes.ok st
  | act :: rest, idx, st =>
    match runTargets weekly verbose (parseBeh idx) act uBeh mapping st with
    | StepRes.ok st2 => runSheets weekly verbose mapping parseBeh uBeh rest (idx + 1) st2
    | StepRes.crash st2 => StepRes.crash st2

/-- The end-of-phase report (main.py lines 224 to 231 and 311 to 318). -/
inductive Summary where
  | allLoaded
  | someFailed (failedTabs : List PyStr)
deriving DecidableEq

/-- Success is reported exactly when the sum of the status values equals
the size of the mapping; otherwise the keys whose value is 0 are listed. -/
def mkSummary (mapping : List (PyStr × PyStr)) (status : List (PyStr × Nat)) : Summary :=
  if (status.map fun p => p.2).sum = mapping.length then Summary.allLoaded
  else Summary.someFailed ((status.filter fun p => p.2 = 0).map fun p => p.1)

/-- Observable outcome of one phase. -/
structure PhaseOut where
  status : List (PyStr × Nat)
  uploads : List UploadRec
  crashed : Bool
  summary : Option Summary
deriving DecidableEq

/-- One full phase (daily or weekly): iterate the sheets against the
mapping from a fresh state, then, when the phase completed and verbosity is
at least 1, emit the summary block. -/
def runPhase (weekly : Bool) (verbose : Nat) (mapping : List (PyStr × PyStr))
    (parseBeh : Nat → ParseOutcome) (uBeh : PyStr → Nat → Table → UpOutcome)
    (sheets : List PyStr) : PhaseOut :=
  match runSheets weekly verbose mapping parseBeh uBeh sheets 0 ⟨[], none, []⟩ with
  | StepRes.ok st =>
    ⟨st.status, st.uploads, false, if 1 ≤ verbose then some (mkSummary mapping st.status) else none⟩
  | StepRes.crash st => ⟨st.status, st.uploads, true, none⟩

/-
The fixed tab-to-relation mappings of main.py.
-/

/-- daily_tab_to_bq_relation_dict (main.py lines 156 to 165). -/
def daily_tab_to_bq_relation_dict : List (PyStr × PyStr) :=
  [("HospBedAvailable-Regional".toList, "Regional_Bed_Availability".toList),
   ("HospBed-Hospital COVID Census".toList, "Hospital_COVID_Census".toList),
   ("Hospitalization from Hospitals".toList, "Hospitalization_from_Hospitals".toList),
   ("LTC Facilities".toList, "LTC_Facilities".toList),
   ("TestingByDate (Test Date)".toList, "TestingByDate".toList),
   ("AgeLast2Weeks".toList, "AgeLast2Weeks".toList),
   ("CountyDeaths".toList, "CountyDeathsLast2Weeks".toList),
   ("County_Weekly".toList, "County_Weekly".toList)]

/-- weekly_tab_to_bq_relation_dict (main.py lines 252 to 255). -/
def weekly_tab_to_bq_relation_dict : List (PyStr × PyStr) :=
  [("LTCF".toList, "LTCF".toList), ("ALR".toList, "ALR".toList)]

/-
Concrete inputs used by the counterexamples and witnesses.
-/

/-- A one-column, one-cell dataframe. -/
def tableC : Table := [("c".toList, [Cell.intVal 1])]

/-- A parse oracle whose try block always completes with tableC. -/
def parseC : Nat → ParseOutcome := fun _ => ParseOutcome.ok tableC

/-- An upload oracle that always succeeds. -/
def upSucc : PyStr → Nat → Table → UpOutcome := fun _ _ _ => UpOutcome.success

/-- An upload oracle whose relation ra raises a non-Arrow exception on
every attempt while every other relation succeeds. -/
def upOtherOnRa : PyStr → Nat → Table → UpOutcome :=
  fun rel _ _ => if rel = "ra".toList then UpOutcome.otherErr else UpOutcome.success

/-- Two well-separated tab names used as a two-entry mapping. -/
def mapAB : List (PyStr × PyStr) :=
  [("aaaa".toList, "ra".toList), ("bbbb".toList, "rb".toList)]

/-- Two ten-character targets one edit apart, both within the default
tolerance of the actual tab aaaaaaaaaa. -/
def mapMulti : List (PyStr × PyStr) :=
  [("aaaaaaaaaa".toList, "r1".toList), ("aaaaaaaaab".toList, "r2".toList)]

/-
Claim-side restatements of the sanitizer, and remaining concrete inputs.
-/

/-- The sanitizer as claim C4 words it: the digit prefix underscore and the
100000-to-100k rewrite compose (the rewrite is applied to the prefixed
name).  Declared only to be compared against process_col. -/
def process_col_claim (col : PyStr) : PyStr :=
  let renamed1 := if startsWithDigit col then '_' :: col else col
  let renamed2 :=
    if containsSub pat_100000 col && !containsSub pat_1000000 col then
      replaceSub pat_100000 rep_100k renamed1
    else renamed1
  let renamed3 := col_chars_underscore_list.foldl (fun s ch => replaceSub [ch] ['_'] s) renamed2
  col_chars_eliminate_list.foldl (fun s ch => replaceSub [ch] [] s) renamed3

/-- Per-character action of the final two sanitizer passes: space, slash
and hyphen become underscore, parenthesis, asterisk, period and equals
disappear, everything else is kept. -/
def charExpand (c : Char) : PyStr :=
  if c ∈ col_chars_underscore_list then ['_']
  else if c ∈ col_chars_eliminate_list then []
  else [c]

/-- Concatenated per-character expansion. -/
def charConcatMap (f : Char → PyStr) : PyStr → PyStr
  | [] => []
  | c :: cs => f c ++ charConcatMap f cs

/-- The sanitizer restated for the amended claim C4, in a single
per-character pass: when the 100k rewrite fires it is applied to the
ORIGINAL name, discarding the digit prefix underscore; the character
replacements and deletions are one concatenated expansion. -/
def process_col_amended (col : PyStr) : PyStr :=
  charConcatMap charExpand
    (if containsSub pat_100000 col && !containsSub pat_1000000 col then
       replaceSub pat_100000 rep_100k col
     else if startsWithDigit col then '_' :: col else col)

/-- Ten cells of which four are ints, four are non-numeric strings and two
are NaN: at least half of the non-missing cells are ints, yet the int ratio
over all cells is 0.4 and the float ratio 0.2. -/
def cex5 : List Cell :=
  [Cell.intVal 1, Cell.intVal 1, Cell.intVal 1, Cell.intVal 1,
   Cell.str ("a".toList), Cell.str ("a".toList), Cell.str ("a".toList), Cell.str ("a".toList),
   Cell.nan, Cell.nan]

/-- Two hundred cells of which exactly 99 are NaN: the float ratio is the
exact tie 99/200 = 0.495, at which CPython rounds the double quotient down
to 0.49, so the cast does not fire. -/
def tieCol : List Cell :=
  List.replicate 99 Cell.nan ++ List.replicate 101 (Cell.str [])

/-- Two hundred and one cells of which 100 are NaN: fewer than half of the
cells are float instances, yet the ratio 100/201 exceeds the 0.495
decision bound and the cast fires. -/
def lenientCol : List Cell :=
  List.replicate 100 Cell.nan ++ List.replicate 101 (Cell.str [])

/-- A table whose single column name .2020 sanitizes to 2020, which a
second sanitizer pass turns into _2020. -/
def t6 : Table := [(".2020".toList, [Cell.intVal 1])]

/-- A table whose column name and cells are fixed by the normalizer. -/
def t6fix : Table := [("abc".toList, [Cell.intVal 3])]

/-- An upload oracle raising the matching ArrowTypeError for column c on
the first attempt and succeeding afterwards. -/
def upArrowOnce : PyStr → Nat → Table → UpOutcome :=
  fun _ attempt _ => if attempt = 1 then UpOutcome.arrowMatch ("c".toList) else UpOutcome.success

/-- An upload behavior (for one fixed relation) raising a non-Arrow error
on the first attempt. -/
def behOther : Nat → Table → UpOutcome := fun _ _ => UpOutcome.otherErr

/-- Invariant of the status dictionary throughout a phase: its keys are
distinct, every key is a target tab of the mapping, and every value is 0 or
1. -/
def StatusInv (allowed : List PyStr) (d : List (PyStr × Nat)) : Prop :=
  (d.map fun p => p.1).Nodup ∧ ∀ p ∈ d, p.1 ∈ allowed ∧ p.2 ≤ 1

/-
Helper lemmas about the character-level sanitizer passes.
-/

theorem charConcatMap_append (f : Char → PyStr) (l1 l2 : PyStr) :
    charConcatMap f (l1 ++ l2) = charConcatMap f l1 ++ charConcatMap f l2 := by
  induction l1 with
  | nil => rfl
  | cons c cs ih => simp [charConcatMap, ih]

theorem charConcatMap_comp (f g : Char → PyStr) (s : PyStr) :
    charConcatMap g (charConcatMap f s) = charConcatMap (fun c => charConcatMap g (f c)) s := by
  induction s with
  | nil => rfl
  | cons c cs ih => simp [charConcatMap, charConcatMap_append, ih]

theorem charConcatMap_congr (f g : Char → PyStr) (h : ∀ c, f c = g c) (s : PyStr) :
    charConcatMap f s = charConcatMap g s := by
  induction s with
  | nil => rfl
  | cons c cs ih => simp [charConcatMap, h c, ih]

theorem replaceSubGo_single (a : Char) (r : PyStr) (s : PyStr) :
    replaceSubGo [a] r 0 s = charConcatMap (fun c => if c = a then r else [c]) s := by
  induction s with
  | nil => rfl
  | cons c cs ih =>
    by_cases hca : a = c
    · subst hca
      simp [replaceSubGo, isPrefixOfChars, charConcatMap, ih]
    · have hac : ¬c = a := fun h => hca h.symm
      simp [replaceSubGo, isPrefixOfChars, charConcatMap, ih, hca, hac]

theorem replaceSub_single (a : Char) (r : PyStr) (s : PyStr) :
    replaceSub [a] r s = charConcatMap (fun c => if c = a then r else [c]) s :=
  replaceSubGo_single a r s

theorem sanitize_tail_eq (s : PyStr) :
    col_chars_eliminate_list.foldl (fun t ch => replaceSub [ch] [] t)
      (col_chars_underscore_list.foldl (fun t ch => replaceSub [ch] ['_'] t) s)
      = charConcatMap charExpand s := by
  simp only [col_chars_underscore_list, col_chars_eliminate_list, List.foldl_cons, List.foldl_nil]
  simp only [replaceSub_single]
  simp only [charConcatMap_comp]
  refine charConcatMap_congr _ _ (fun c => ?_) s
  by_cases h1 : c = ' '
  · subst h1; rfl
  by_cases h2 : c = '/'
  · subst h2; rfl
  by_cases h3 : c = '-'
  · subst h3; rfl
  by_cases h4 : c = '('
  · subst h4; rfl
  by_cases h5 : c = ')'
  · subst h5; rfl
  by_cases h6 : c = '*'
  · subst h6; rfl
  by_cases h7 : c = '.'
  · subst h7; rfl
  by_cases h8 : c = '='
  · subst h8; rfl
  simp [charConcatMap, charExpand, col_chars_underscore_list, col_chars_eliminate_list,
    h1, h2, h3, h4, h5, h6, h7, h8]

/-- C4: the column-name sanitizer.  CORRECTED.  The claim asserts that the
digit prefix underscore and the 100000-to-100k rewrite are both applied;
in the source the rewrite assigns from the original name, discarding the
digit prefix underscore, so the two rules never compose.  This theorem
proves the amended description: the sanitizer equals a single
per-character expansion applied to the rewritten-or-prefixed base name,
where the rewrite, when it fires, starts from the original name; the three
worked examples of the spec all hold. -/
theorem c4_col_sanitize_amended :
    (∀ col : PyStr, process_col col = process_col_amended col) ∧
    process_col ("2020(cases)".toList) = "_2020cases".toList ∧
    process_col ("Rate per 100000 people".toList) = "Rate_per_100k_people".toList ∧
    process_col ("Rate per 1000000 people".toList) = "Rate_per_1000000_people".toList := by
  refine ⟨fun col => ?_, by decide, by decide, by decide⟩
  show col_chars_eliminate_list.foldl (fun t ch => replaceSub [ch] [] t)
      (col_chars_underscore_list.foldl (fun t ch => replaceSub [ch] ['_'] t) _) = _
  rw [sanitize_tail_eq]
  rfl

/-- C4 counterexample: on the name 100000, which begins with a digit and
contains the literal 100000, the source produces 100k with no underscore
while the claim prescribes the prefixed form. -/
theorem c4_col_sanitize_cex :
    process_col ("100000".toList) = "100k".toList ∧
    process_col_claim ("100000".toList) = "_100k".toList ∧
    process_col ("100000".toList) ≠ process_col_claim ("100000".toList) := by
  decide

/-
Helper lemmas about pd.to_numeric and the cast loop.
-/

theorem parseNumCell_numeric (s : PyStr) (v : Cell) (h : parseNumCell s = some v) :
    to_numeric_cell v = v := by
  unfold parseNumCell at h
  split at h
  · split at h
    · injection h with h; subst h; rfl
    · exact absurd h (by simp)
  · split at h
    · injection h with h; subst h; rfl
    · exact absurd h (by simp)

theorem to_numeric_cell_idem (c : Cell) :
    to_numeric_cell (to_numeric_cell c) = to_numeric_cell c := by
  cases c with
  | str s =>
    cases h : parseNumCell s with
    | none => simp only [to_numeric_cell, h]
    | some v =>
      simp only [to_numeric_cell, h]
      exact parseNumCell_numeric s v h
  | intVal n => rfl
  | floatVal q => rfl
  | nan => rfl

theorem map_to_numeric_idem (l : List Cell) :
    (l.map to_numeric_cell).map to_numeric_cell = l.map to_numeric_cell := by
  induction l with
  | nil => rfl
  | cons c cs ih => simp [to_numeric_cell_idem c, ih]

theorem normalize_cells_map (l : List Cell) :
    normalize_cells (l.map to_numeric_cell) = l.map to_numeric_cell := by
  unfold normalize_cells
  by_cases h1 : count_float_ratio_ge_half (l.map to_numeric_cell) = true
  · rw [if_pos h1, map_to_numeric_idem]
    by_cases h2 : count_int_ratio_ge_half (l.map to_numeric_cell) = true
    · rw [if_pos h2, map_to_numeric_idem]
    · rw [if_neg h2]
  · rw [if_neg h1]
    by_cases h2 : count_int_ratio_ge_half (l.map to_numeric_cell) = true
    · rw [if_pos h2, map_to_numeric_idem]
    · rw [if_neg h2]

theorem normalize_cells_cases (l : List Cell) :
    normalize_cells l = l ∨ normalize_cells l = l.map to_numeric_cell := by
  unfold normalize_cells
  by_cases h1 : count_float_ratio_ge_half l = true
  · rw [if_pos h1]
    by_cases h2 : count_int_ratio_ge_half (l.map to_numeric_cell) = true
    · rw [if_pos h2, map_to_numeric_idem]; exact Or.inr rfl
    · rw [if_neg h2]; exact Or.inr rfl
  · rw [if_neg h1]
    by_cases h2 : count_int_ratio_ge_half l = true
    · rw [if_pos h2]; exact Or.inr rfl
    · rw [if_neg h2]; exact Or.inl rfl

theorem normalize_cells_idem (l : List Cell) :
    normalize_cells (normalize_cells l) = normalize_cells l := by
  rcases normalize_cells_cases l with h | h
  · rw [h, h]
  · rw [h, normalize_cells_map]

theorem normalize_pointwise (df : Table) :
    normalize_df df = df.map fun p => (process_col p.1, normalize_cells p.2) := by
  unfold normalize_df process_cols
  rw [List.map_map]
  have hfun : ((fun p : PyStr × List Cell => (p.1, normalize_cells p.2)) ∘
      fun p : PyStr × List Cell => (process_col p.1, p.2))
      = fun p : PyStr × List Cell => (process_col p.1, normalize_cells p.2) := by
    funext p
    rfl
  rw [hfun]

theorem norm_map_idem (t : Table) (hnames : ∀ p ∈ t, process_col p.1 = p.1) :
    (t.map fun p => (process_col (process_col p.1), normalize_cells (normalize_cells p.2)))
      = t.map fun p => (process_col p.1, normalize_cells p.2) := by
  induction t with
  | nil => simp only [List.map_nil]
  | cons p rest ih =>
    have hp := hnames p (List.mem_cons_self p rest)
    simp only [List.map_cons, List.cons.injEq]
    refine ⟨?_, ih fun q hq => hnames q (List.mem_cons_of_mem p hq)⟩
    rw [Prod.mk.injEq]
    exact ⟨by rw [hp]; exact hp, normalize_cells_idem p.2⟩

/-- C6: idempotence of the normalizer.  CORRECTED.  The unconditional
equation normalize_df (normalize_df t) = normalize_df t of the claim fails (see the
counterexample); re-running the normalizer is a no-op on every table whose
column names are each fixed by the sanitizer, the numeric cast pass being
idempotent unconditionally.  Columns are required non-empty because the
source ratio computation divides by the column length. -/
theorem c6_normalize_idem_amended (t : Table)
    (hnames : ∀ p ∈ t, process_col p.1 = p.1)
    (hcells : ∀ p ∈ t, p.2 ≠ ([] : List Cell)) :
    normalize_df (normalize_df t) = normalize_df t := by
  rw [normalize_pointwise (normalize_df t), normalize_pointwise t, List.map_map]
  have hfun : ((fun p : PyStr × List Cell => (process_col p.1, normalize_cells p.2)) ∘
      fun p : PyStr × List Cell => (process_col p.1, normalize_cells p.2))
      = fun p : PyStr × List Cell =>
          (process_col (process_col p.1), normalize_cells (normalize_cells p.2)) := by
    funext p
    rfl
  rw [hfun]
  exact norm_map_idem t hnames

/-- C6 counterexample: the table with the single column name .2020 is
normalized to column 2020, and a second normalizer pass renames that
to _2020, so the normalizer is not idempotent on every input table. -/
theorem c6_normalize_idem_cex : normalize_df (normalize_df t6) ≠ normalize_df t6 := by
  decide

/-- C6 witness: a table with sanitized name and numeric cells, on which the
amended idempotence theorem applies. -/
theorem c6_normalize_idem_witness :
    (∀ p ∈ t6fix, process_col p.1 = p.1) ∧ (∀ p ∈ t6fix, p.2 ≠ ([] : List Cell)) ∧
    normalize_df (normalize_df t6fix) = normalize_df t6fix :=
  ⟨by decide, by decide, c6_normalize_idem_amended t6fix (by decide) (by decide)⟩

set_option maxRecDepth 4000 in
/-- C5: the numeric-cast heuristic.  CORRECTED.  Two divergences from the
claim: the ratio is computed over ALL cells, NaN counting as a float
instance and the total cell count as denominator, not over the non-missing
cells; and the comparison round(ratio, 2) >= 0.5, evaluated by CPython on
the double quotient, holds exactly when 200 times the count STRICTLY
exceeds 99 times the length: at the exact tie, ratio 99/200, the double
quotient lies below 0.495 and rounds to 0.49, so no cast happens.  This
theorem states the amended decision for both rules, shows that a count of
at least half of all cells always casts, and exhibits the boundary: the
200-cell column with 99 NaN cells is not cast, while the 201-cell column
with 100 NaN cells is cast although fewer than half its cells are float
instances. -/
theorem c5_numeric_cast_amended (cells : List Cell) (h : cells ≠ []) :
    (count_float_ratio_ge_half cells = true ↔
      99 * cells.length < 200 * (cells.filter fun c => isFloatInst c).length) ∧
    (count_int_ratio_ge_half cells = true ↔
      99 * cells.length < 200 * (cells.filter fun c => isIntInst c).length) ∧
    (cells.length ≤ 2 * (cells.filter fun c => isFloatInst c).length →
      count_float_ratio_ge_half cells = true) ∧
    (cells.length ≤ 2 * (cells.filter fun c => isIntInst c).length →
      count_int_ratio_ge_half cells = true) ∧
    (count_float_ratio_ge_half tieCol = false ∧
     count_float_ratio_ge_half lenientCol = true ∧
     2 * (lenientCol.filter fun c => isFloatInst c).length < lenientCol.length) := by
  have hb : 0 < cells.length := List.length_pos.mpr h
  have key : ∀ cnt : Nat,
      ratio_round2_ge_half cnt cells.length = true ↔ 99 * cells.length < 200 * cnt := by
    intro cnt
    simp only [ratio_round2_ge_half, decide_eq_true_eq]
  exact ⟨key _, key _, fun hle => (key _).mpr (by omega), fun hle => (key _).mpr (by omega),
    by decide⟩

/-- C5 counterexample: on a column of four ints, four non-numeric strings
and two NaN cells, at least half of the non-missing cells are ints, so the
claim prescribes a forced numeric cast; the source computes an int ratio of
0.40 and a float ratio of 0.20 over all ten cells and leaves the column
untouched, although the cast would have changed it. -/
theorem c5_numeric_cast_cex :
    claim_int_cast_cond cex5 = true ∧ claim_float_cast_cond cex5 = false ∧
    normalize_cells cex5 = cex5 ∧ cex5.map to_numeric_cell ≠ cex5 := by
  decide

/-- C5 witness: the single-cell NaN column satisfies the amended
characterization. -/
theorem c5_numeric_cast_witness :
    ([Cell.nan] ≠ ([] : List Cell)) ∧
    ((count_float_ratio_ge_half [Cell.nan] = true ↔
      99 * ([Cell.nan] : List Cell).length <
        200 * (([Cell.nan] : List Cell).filter fun c => isFloatInst c).length) ∧
     (count_int_ratio_ge_half [Cell.nan] = true ↔
      99 * ([Cell.nan] : List Cell).length <
        200 * (([Cell.nan] : List Cell).filter fun c => isIntInst c).length) ∧
     (([Cell.nan] : List Cell).length ≤
        2 * (([Cell.nan] : List Cell).filter fun c => isFloatInst c).length →
      count_float_ratio_ge_half [Cell.nan] = true) ∧
     (([Cell.nan] : List Cell).length ≤
        2 * (([Cell.nan] : List Cell).filter fun c => isIntInst c).length →
      count_int_ratio_ge_half [Cell.nan] = true) ∧
     (count_float_ratio_ge_half tieCol = false ∧
      count_float_ratio_ge_half lenientCol = true ∧
      2 * (lenientCol.filter fun c => isFloatInst c).length < lenientCol.length)) :=
  ⟨by decide, c5_numeric_cast_amended [Cell.nan] (by decide)⟩

/-
Helper lemma for the default-tolerance ceiling.
-/

theorem ceilMul_tenth (n : Nat) :
    ceilMul n tolerable_levenshtein_ratio = ((n + 9) / 10 : Nat) := by
  have h1 : tolerable_levenshtein_ratio.num = 1 := rfl
  have h2 : tolerable_levenshtein_ratio.den = 10 := rfl
  unfold ceilMul
  rw [h1, h2]
  omega

/-- C1: the fuzzy sheet matcher.  CORRECTED.  The claim takes the threshold
from the length of the canonical target name; the source computes
math.ceil(len(str_1) * ratio) where str_1 is the ACTUAL tab name at both
call sites.  This theorem proves the amended description at the default
tolerance 0.1: the matcher accepts exactly when the Levenshtein distance of
the case-folded, space-stripped names is at most ceil(actual-name length
times 0.1), rendered as the integer bound (length + 9) / 10; the two
worked examples of the spec also hold. -/
theorem c1_sheet_match_amended :
    (∀ a t : PyStr, levenshtein_dist_ok a t tolerable_levenshtein_ratio = true ↔
      distance (processedName a) (processedName t) ≤ (a.length + 9) / 10) ∧
    levenshtein_dist_ok ("HospBedAvailable-Regionl".toList) ("HospBedAvailable-Regional".toList)
      tolerable_levenshtein_ratio = true ∧
    levenshtein_dist_ok ("ALR".toList) ("LTCF".toList) tolerable_levenshtein_ratio = false := by
  refine ⟨fun a t => ?_, by decide, by decide⟩
  unfold levenshtein_dist_ok
  rw [decide_eq_true_eq, ceilMul_tenth]
  omega

/-- C1 counterexample: the eleven-character actual name abcdefghijk and the
nine-character target abcdefghi are at distance two; the source threshold
ceil(11 times 0.1) = 2 accepts, while the claim threshold
ceil(9 times 0.1) = 1 rejects. -/
theorem c1_sheet_match_cex :
    levenshtein_dist_ok ("abcdefghijk".toList) ("abcdefghi".toList)
      tolerable_levenshtein_ratio = true ∧
    levenshtein_dist_ok_claim ("abcdefghijk".toList) ("abcdefghi".toList)
      tolerable_levenshtein_ratio = false := by
  decide

/-
Helper lemmas about the upload retry loop.
-/

theorem uploadLoopGo_dfs_head (beh : Nat → Table → UpOutcome) (fuel a : Nat) (df : Table) :
    (uploadLoopGo beh (fuel + 1) a df).dfs.head? = some df := by
  unfold uploadLoopGo
  cases hb : beh a df <;> rfl

theorem uploadLoop_dfs_head (beh : Nat → Table → UpOutcome) (df : Table) :
    (uploadLoop beh df).dfs.head? = some df :=
  uploadLoopGo_dfs_head beh 4 1 df

theorem uploadLoopGo_dfs_len (beh : Nat → Table → UpOutcome) :
    ∀ (fuel a : Nat) (df : Table), (uploadLoopGo beh fuel a df).dfs.length ≤ fuel := by
  intro fuel
  induction fuel with
  | zero => intro a df; exact Nat.le_refl 0
  | succ n ih =>
    intro a df
    unfold uploadLoopGo
    cases hb : beh a df with
    | success => simp
    | arrowMatch col =>
      simp only [List.length_cons]
      exact Nat.succ_le_succ (ih (a + 1) (castColStr col df))
    | arrowOther =>
      simp only [List.length_cons]
      exact Nat.succ_le_succ (ih (a + 1) df)
    | otherErr => simp

theorem uploadLoopGo_success_dfs (beh : Nat → Table → UpOutcome) (n a : Nat) (df : Table)
    (h : beh a df = UpOutcome.success) :
    (uploadLoopGo beh (n + 1) a df).dfs = [df] := by
  simp only [uploadLoopGo]
  rw [h]

theorem uploadLoopGo_arrowMatch_dfs (beh : Nat → Table → UpOutcome) (n a : Nat) (df : Table)
    (c0 : PyStr) (h : beh a df = UpOutcome.arrowMatch c0) :
    (uploadLoopGo beh (n + 1) a df).dfs
      = df :: (uploadLoopGo beh n (a + 1) (castColStr c0 df)).dfs := by
  simp only [uploadLoopGo]
  rw [h]

theorem uploadLoopGo_arrowOther_dfs (beh : Nat → Table → UpOutcome) (n a : Nat) (df : Table)
    (h : beh a df = UpOutcome.arrowOther) :
    (uploadLoopGo beh (n + 1) a df).dfs = df :: (uploadLoopGo beh n (a + 1) df).dfs := by
  simp only [uploadLoopGo]
  rw [h]

theorem uploadLoopGo_otherErr_dfs (beh : Nat → Table → UpOutcome) (n a : Nat) (df : Table)
    (h : beh a df = UpOutcome.otherErr) :
    (uploadLoopGo beh (n + 1) a df).dfs = [df] := by
  simp only [uploadLoopGo]
  rw [h]

theorem uploadLoopGo_dfs_step (beh : Nat → Table → UpOutcome) :
    ∀ (fuel a i : Nat) (df T : Table) (col : PyStr),
      (uploadLoopGo beh fuel a df).dfs[i]? = some T →
      beh (a + i) T = UpOutcome.arrowMatch col →
      i + 1 < fuel →
      (uploadLoopGo beh fuel a df).dfs[i + 1]? = some (castColStr col T) := by
  intro fuel
  induction fuel with
  | zero => intro a i df T col h1 h2 h3; omega
  | succ n ih =>
    intro a i df T col h1 h2 h3
    cases hb : beh a df with
    | success =>
      rw [uploadLoopGo_success_dfs beh n a df hb] at h1 ⊢
      cases i with
      | zero =>
        simp only [List.getElem?_cons_zero, Option.some.injEq] at h1
        subst h1
        rw [Nat.add_zero, hb] at h2
        cases h2
      | succ j => simp at h1
    | arrowMatch c0 =>
      rw [uploadLoopGo_arrowMatch_dfs beh n a df c0 hb] at h1 ⊢
      cases i with
      | zero =>
        simp only [List.getElem?_cons_zero, Option.some.injEq] at h1
        subst h1
        rw [Nat.add_zero, hb] at h2
        injection h2 with hcol
        subst hcol
        simp only [List.getElem?_cons_succ]
        obtain ⟨m, rfl⟩ : ∃ m, n = m + 1 := ⟨n - 1, by omega⟩
        rw [← List.head?_eq_getElem?]
        exact uploadLoopGo_dfs_head beh m (a + 1) (castColStr c0 df)
      | succ j =>
        simp only [List.getElem?_cons_succ] at h1 ⊢
        have h2a : beh ((a + 1) + j) T = UpOutcome.arrowMatch col := by
          rw [show (a + 1) + j = a + (j + 1) by omega]
          exact h2
        exact ih (a + 1) j (castColStr c0 df) T col h1 h2a (by omega)
    | arrowOther =>
      rw [uploadLoopGo_arrowOther_dfs beh n a df hb] at h1 ⊢
      cases i with
      | zero =>
        simp only [List.getElem?_cons_zero, Option.some.injEq] at h1
        subst h1
        rw [Nat.add_zero, hb] at h2
        cases h2
      | succ j =>
        simp only [List.getElem?_cons_succ] at h1 ⊢
        have h2a : beh ((a + 1) + j) T = UpOutcome.arrowMatch col := by
          rw [show (a + 1) + j = a + (j + 1) by omega]
          exact h2
        exact ih (a + 1) j df T col h1 h2a (by omega)
    | otherErr =>
      rw [uploadLoopGo_otherErr_dfs beh n a df hb] at h1 ⊢
      cases i with
      | zero =>
        simp only [List.getElem?_cons_zero, Option.some.injEq] at h1
        subst h1
        rw [Nat.add_zero, hb] at h2
        cases h2
      | succ j => simp at h1

/-- C2: the upload retry on the specific type-coercion failure.  CONFIRMED.
When the attempt numbered i + 1 was performed on dataframe T and the
behavior of that attempt is the ArrowTypeError matching the
bytes-received-int pattern naming column col, and attempts remain, then the
next attempt is performed on exactly castColStr col T, the dataframe with
that one column cast to string in-place exactly once; and the loop never
performs more than the five budgeted attempts. -/
theorem c2_upload_retry (beh : Nat → Table → UpOutcome) (df : Table)
    (i : Nat) (T : Table) (col : PyStr)
    (h1 : (uploadLoop beh df).dfs[i]? = some T)
    (h2 : beh (i + 1) T = UpOutcome.arrowMatch col)
    (h3 : i + 1 < total_upload_attempts) :
    (uploadLoop beh df).dfs[i + 1]? = some (castColStr col T) ∧
    (uploadLoop beh df).dfs.length ≤ total_upload_attempts := by
  constructor
  · have h2a : beh (1 + i) T = UpOutcome.arrowMatch col := by
      rw [Nat.add_comm 1 i]; exact h2
    exact uploadLoopGo_dfs_step beh total_upload_attempts 1 i df T col h1 h2a h3
  · exact uploadLoopGo_dfs_len beh total_upload_attempts 1 df

/-- C2 witness: a run in which the first attempt raises the matching
ArrowTypeError on column c of the concrete table and the second attempt,
on the cast table, succeeds. -/
theorem c2_upload_retry_witness :
    ((uploadLoop (upArrowOnce ("r".toList)) tableC).dfs[0]? = some tableC) ∧
    (upArrowOnce ("r".toList) 1 tableC = UpOutcome.arrowMatch ("c".toList)) ∧
    ((0 : Nat) + 1 < total_upload_attempts) ∧
    ((uploadLoop (upArrowOnce ("r".toList)) tableC).dfs[0 + 1]? =
      some (castColStr ("c".toList) tableC)) ∧
    ((uploadLoop (upArrowOnce ("r".toList)) tableC).dfs.length ≤ total_upload_attempts) :=
  ⟨by decide, by decide, by decide,
   (c2_upload_retry (upArrowOnce ("r".toList)) tableC 0 tableC ("c".toList)
     (by decide) (by decide) (by decide)).1,
   (c2_upload_retry (upArrowOnce ("r".toList)) tableC 0 tableC ("c".toList)
     (by decide) (by decide) (by decide)).2⟩

/-- C3: failure isolation of the upload loop.  CORRECTED.  The claim says
any non-type-coercion failure aborts the retry loop, marks the relation
failed, and lets the run continue with the remaining sheets.  In the source
only ArrowTypeError is caught: an ArrowTypeError without the specific
message pattern is retried rather than aborted, and any other exception
escapes the loop uncaught, killing the whole run, with no failure mark for
the relation.  This theorem proves the amended description: a non-Arrow
failure on the first attempt ends the loop immediately with no status
assignment and the crash flag set, and a crash while processing one sheet
aborts the iteration so that no later sheet is attempted. -/
theorem c3_upload_failure_amended :
    (∀ (beh : Nat → Table → UpOutcome) (df : Table), beh 1 df = UpOutcome.otherErr →
      uploadLoop beh df = ⟨df, none, true, [df], []⟩) ∧
    (∀ (weekly : Bool) (verbose : Nat) (mapping : List (PyStr × PyStr))
       (parseBeh : Nat → ParseOutcome) (uBeh : PyStr → Nat → Table → UpOutcome)
       (act : PyStr) (rest : List PyStr) (idx : Nat) (st st2 : RunSt),
      runTargets weekly verbose (parseBeh idx) act uBeh mapping st = StepRes.crash st2 →
      runSheets weekly verbose mapping parseBeh uBeh (act :: rest) idx st = StepRes.crash st2) := by
  constructor
  · intro beh df h
    show uploadLoopGo beh (4 + 1) 1 df = _
    unfold uploadLoopGo
    rw [h]
  · intro weekly verbose mapping parseBeh uBeh act rest idx st st2 h
    unfold runSheets
    rw [h]

/-- C3 witness: a concrete two-sheet run whose first relation raises a
non-Arrow error on its first attempt; the loop output carries no status
assignment, and the phase iteration stops at the crash state. -/
theorem c3_upload_failure_witness :
    (uploadLoop behOther tableC = ⟨tableC, none, true, [tableC], []⟩) ∧
    (runSheets false 0 mapAB parseC upOtherOnRa ["aaaa".toList, "bbbb".toList] 0 ⟨[], none, []⟩
      = StepRes.crash ⟨[], some tableC, [⟨"ra".toList, [tableC], []⟩]⟩) :=
  ⟨c3_upload_failure_amended.1 behOther tableC rfl,
   c3_upload_failure_amended.2 false 0 mapAB parseC upOtherOnRa ("aaaa".toList)
     ["bbbb".toList] 0 ⟨[], none, []⟩ ⟨[], some tableC, [⟨"ra".toList, [tableC], []⟩]⟩
     (by decide)⟩

/-- C3 counterexample: in that concrete run the phase crashes, the failing
relation ra is never marked failed (the status dictionary stays empty), and
the second sheet bbbb, which would have matched and uploaded to rb, is
never attempted. -/
theorem c3_upload_failure_cex :
    (runPhase false 0 mapAB parseC upOtherOnRa ["aaaa".toList, "bbbb".toList]).crashed = true ∧
    (runPhase false 0 mapAB parseC upOtherOnRa ["aaaa".toList, "bbbb".toList]).status = [] ∧
    ((runPhase false 0 mapAB parseC upOtherOnRa ["aaaa".toList, "bbbb".toList]).uploads.map
      fun r => r.relation) = ["ra".toList] := by
  decide

theorem uploadLoop_success (beh : Nat → Table → UpOutcome) (df : Table)
    (h : beh 1 df = UpOutcome.success) :
    uploadLoop beh df = ⟨df, some 1, false, [df], []⟩ := by
  show uploadLoopGo beh (4 + 1) 1 df = _
  unfold uploadLoopGo
  rw [h]
  rfl

/-- C7: multiply-matching tab names.  CORRECTED.  The claim says the first
satisfying target in iteration order wins and the tab is uploaded once, to
that target only.  The source has no break after a match, so the tab is
processed and uploaded once per satisfying target.  This theorem proves the
amended description for the daily loop with an always-successful uploader:
the trace gains exactly one upload record, in iteration order, for EVERY
target within tolerance of the actual tab, each carrying the normalized
parsed table. -/
theorem c7_multi_match_amended (verbose : Nat) (raw : Table) (act : PyStr)
    (uBeh : PyStr → Nat → Table → UpOutcome) (targets : List (PyStr × PyStr)) (st : RunSt)
    (hs : ∀ r a d, uBeh r a d = UpOutcome.success) :
    ∃ st2, runTargets false verbose (ParseOutcome.ok raw) act uBeh targets st = StepRes.ok st2 ∧
      st2.uploads = st.uploads ++
        ((targets.filter fun p => levenshtein_dist_ok act p.1 tolerable_levenshtein_ratio).map
          fun p => ⟨p.2, [normalize_df raw], []⟩) := by
  induction targets generalizing st with
  | nil => exact ⟨st, rfl, by simp⟩
  | cons p rest ih =>
    obtain ⟨tgt, rel⟩ := p
    by_cases hm : levenshtein_dist_ok act tgt tolerable_levenshtein_ratio = true
    · have hup : runUpload uBeh tgt rel (normalize_df raw) st.status st.uploads =
          StepRes.ok ⟨dictSet st.status tgt 1, some (normalize_df raw),
            st.uploads ++ [⟨rel, [normalize_df raw], []⟩]⟩ := by
        unfold runUpload
        rw [uploadLoop_success (uBeh rel) (normalize_df raw) (hs rel 1 (normalize_df raw))]
        rfl
      simp only [runTargets, hm, if_true, Bool.false_eq_true, false_and, if_false, hup]
      obtain ⟨st3, h3, hu⟩ :=
        ih ⟨dictSet st.status tgt 1, some (normalize_df raw),
          st.uploads ++ [⟨rel, [normalize_df raw], []⟩]⟩
      refine ⟨st3, h3, ?_⟩
      rw [hu]
      simp [List.filter_cons, hm]
    · have hm2 : levenshtein_dist_ok act tgt tolerable_levenshtein_ratio = false := by
        cases hx : levenshtein_dist_ok act tgt tolerable_levenshtein_ratio
        · rfl
        · exact absurd hx hm
      simp only [runTargets, hm2, Bool.false_eq_true, if_false]
      obtain ⟨st3, h3, hu⟩ := ih st
      refine ⟨st3, h3, ?_⟩
      rw [hu]
      simp [List.filter_cons, hm2]

/-- C7 witness: the actual tab aaaaaaaaaa is within tolerance of both
mapMulti targets, and the amended theorem yields one upload per target. -/
theorem c7_multi_match_witness :
    ∃ st2, runTargets false 0 (ParseOutcome.ok tableC) ("aaaaaaaaaa".toList) upSucc mapMulti ⟨[], none, []⟩
        = StepRes.ok st2 ∧
      st2.uploads = ([] : List UploadRec) ++
        ((mapMulti.filter fun p =>
            levenshtein_dist_ok ("aaaaaaaaaa".toList) p.1 tolerable_levenshtein_ratio).map
          fun p => ⟨p.2, [normalize_df tableC], []⟩) :=
  c7_multi_match_amended 0 tableC ("aaaaaaaaaa".toList) upSucc mapMulti ⟨[], none, []⟩
    (fun _ _ _ => rfl)

/-- C7 counterexample: in the concrete run the single tab aaaaaaaaaa is
uploaded twice, to r1 and then to r2, not only to the first matching
target. -/
theorem c7_multi_match_cex :
    ((runPhase false 0 mapMulti parseC upSucc ["aaaaaaaaaa".toList]).uploads.map
      fun r => r.relation) = ["r1".toList, "r2".toList] := by
  decide

/-- C8: the weekly near-match diagnostic.  CODE BUG.  The claim (and the
spec) require an inexact accepted weekly match to log a diagnostic and
proceed with the upload; the source print at line 266 references the
undefined names sheet_name and actual_sheet_name, so at verbosity 1 the
NameError aborts the run before parsing: here the weekly tab LTCFX is
accepted against target LTCF (distance 1, threshold 1) yet the phase
crashes with no upload and no status entry.  The parallel daily diagnostic
at line 178 uses the defined names act_tab and tgt_tab, which shows the
intent the weekly path missed. -/
theorem c8_weekly_nearmatch_bug :
    levenshtein_dist_ok ("LTCFX".toList) ("LTCF".toList) tolerable_levenshtein_ratio = true ∧
    ("LTCFX".toList ≠ "LTCF".toList) ∧
    (runPhase true 1 weekly_tab_to_bq_relation_dict parseC upSucc ["LTCFX".toList]).crashed
      = true ∧
    (runPhase true 1 weekly_tab_to_bq_relation_dict parseC upSucc ["LTCFX".toList]).uploads
      = [] ∧
    (runPhase true 1 weekly_tab_to_bq_relation_dict parseC upSucc ["LTCFX".toList]).status
      = [] := by
  decide

/-- C9: the daily try-block failure fall-through.  CORRECTED.  The except
block records the failure and does not skip the upload, but what dataframe
falls through depends on where the try block raised.  When the parse CALL
itself fails, the df variable is untouched: the upload loop runs on the
leftover dataframe of the previously processed tab (its first attempt
receives exactly that leftover), and with no previously processed tab the
unbound df name raises NameError inside the attempt try, which only
catches ArrowTypeError, crashing the run.  But when the failure comes
after line 182 has already rebound df to the freshly parsed frame (a
process_cols or known-column cast error), the upload runs on the CURRENT,
partially processed frame of this very tab, not a previous leftover, and
no NameError occurs even when no earlier tab was processed. -/
theorem c9_parse_fallthrough (verbose : Nat) (act tgt rel : PyStr)
    (uBeh : PyStr → Nat → Table → UpOutcome) (status : List (PyStr × Nat))
    (ups : List UploadRec) (d cur : Table)
    (hm : levenshtein_dist_ok act tgt tolerable_levenshtein_ratio = true) :
    ((stOf (runTargets false verbose ParseOutcome.parseFail act uBeh [(tgt, rel)]
        ⟨status, some d, ups⟩)).uploads
      = ups ++ [⟨rel, (uploadLoop (uBeh rel) d).dfs, (uploadLoop (uBeh rel) d).casts⟩]) ∧
    ((uploadLoop (uBeh rel) d).dfs.head? = some d) ∧
    (runTargets false verbose ParseOutcome.parseFail act uBeh [(tgt, rel)]
        ⟨status, none, ups⟩
      = StepRes.crash ⟨dictSet status tgt 0, none, ups⟩) ∧
    (∀ dfr : Option Table,
      (stOf (runTargets false verbose (ParseOutcome.processFail cur) act uBeh [(tgt, rel)]
        ⟨status, dfr, ups⟩)).uploads
      = ups ++ [⟨rel, (uploadLoop (uBeh rel) cur).dfs, (uploadLoop (uBeh rel) cur).casts⟩]) ∧
    ((uploadLoop (uBeh rel) cur).dfs.head? = some cur) := by
  refine ⟨?_, uploadLoop_dfs_head (uBeh rel) d, ?_, ?_, uploadLoop_dfs_head (uBeh rel) cur⟩
  · simp only [runTargets, hm, if_true, Bool.false_eq_true, false_and, if_false]
    unfold runUpload
    dsimp only
    cases hcr : (uploadLoop (uBeh rel) d).crashed
    · rfl
    · rfl
  · simp only [runTargets, hm, if_true, Bool.false_eq_true, false_and, if_false]
  · intro dfr
    simp only [runTargets, hm, if_true, Bool.false_eq_true, false_and, if_false]
    unfold runUpload
    dsimp only
    cases hcr : (uploadLoop (uBeh rel) cur).crashed
    · rfl
    · rfl

/-- C9 counterexample: a normalize-phase failure (df already rebound on
line 182) with NO previously processed tab.  The claim predicts either an
upload of a previous leftover frame or an unbound-name NameError; instead
the step completes without crashing and uploads the current, partially
processed frame of this very tab. -/
theorem c9_parse_fallthrough_cex :
    runTargets false 0 (ParseOutcome.processFail tableC) ("aaaa".toList) upSucc
      [("aaaa".toList, "rr".toList)] ⟨[], none, []⟩
      = StepRes.ok ⟨[("aaaa".toList, 1)], some tableC, [⟨"rr".toList, [tableC], []⟩]⟩ := by
  decide

/-- C9 witness: a single-target daily step with an always-successful
uploader, covering the parse-call failure with a bound leftover dataframe,
the crash shape when the dataframe is unbound, and the post-rebind failure
uploading the current frame. -/
/-
Helper lemmas about the status dictionary, toward the summary claim.
-/

theorem map_update_fst (d : List (PyStr × Nat)) (k : PyStr) (v : Nat) :
    ((d.map fun p => if p.1 = k then (k, v) else p).map fun p => p.1) = d.map fun p => p.1 := by
  induction d with
  | nil => rfl
  | cons q rest ih =>
    simp only [List.map_cons, ih, List.cons.injEq, and_true]
    by_cases hq : q.1 = k
    · rw [if_pos hq]; exact hq.symm
    · rw [if_neg hq]

theorem dictSet_inv (allowed : List PyStr) (d : List (PyStr × Nat)) (k : PyStr) (v : Nat)
    (hk : k ∈ allowed) (hv : v ≤ 1) (h : StatusInv allowed d) :
    StatusInv allowed (dictSet d k v) := by
  obtain ⟨hnd, hmem⟩ := h
  unfold dictSet
  split_ifs with hany
  · constructor
    · rw [map_update_fst]; exact hnd
    · intro p hp
      obtain ⟨q, hq, hqe⟩ := List.mem_map.mp hp
      by_cases hqk : q.1 = k
      · rw [if_pos hqk] at hqe
        rw [← hqe]
        exact ⟨hk, hv⟩
      · rw [if_neg hqk] at hqe
        rw [← hqe]
        exact hmem q hq
  · have hknot : k ∉ d.map fun p => p.1 := by
      intro hkm
      obtain ⟨q, hq, hqe⟩ := List.mem_map.mp hkm
      exact hany (List.any_eq_true.mpr ⟨q, hq, by rw [hqe]; simp⟩)
    refine ⟨?_, ?_⟩
    · rw [List.map_append, List.nodup_append]
      refine ⟨hnd, List.nodup_singleton _, ?_⟩
      rw [List.map_cons, List.map_nil, List.disjoint_singleton]
      exact hknot
    · intro p hp
      rcases List.mem_append.mp hp with hp2 | hp2
      · exact hmem p hp2
      · rw [List.mem_singleton] at hp2
        subst hp2
        exact ⟨hk, hv⟩

theorem uploadLoopGo_statusSet_le (beh : Nat → Table → UpOutcome) :
    ∀ (fuel a : Nat) (df : Table) (v : Nat),
      (uploadLoopGo beh fuel a df).statusSet = some v → v ≤ 1 := by
  intro fuel
  induction fuel with
  | zero =>
    intro a df v h
    exact absurd h (by simp [uploadLoopGo])
  | succ n ih =>
    intro a df v h
    cases hb : beh a df with
    | success =>
      have he : (uploadLoopGo beh (n + 1) a df).statusSet = some 1 := by
        simp only [uploadLoopGo]; rw [hb]
      rw [he] at h
      injection h with h
      omega
    | arrowMatch c0 =>
      have he : (uploadLoopGo beh (n + 1) a df).statusSet =
          (match (uploadLoopGo beh n (a + 1) (castColStr c0 df)).statusSet with
           | some w => some w
           | none => some 0) := by
        simp only [uploadLoopGo]; rw [hb]
      rw [he] at h
      cases hs : (uploadLoopGo beh n (a + 1) (castColStr c0 df)).statusSet with
      | some w =>
        simp only [hs] at h
        injection h with h
        subst h
        exact ih (a + 1) (castColStr c0 df) _ hs
      | none =>
        simp only [hs] at h
        injection h with h
        omega
    | arrowOther =>
      have he : (uploadLoopGo beh (n + 1) a df).statusSet =
          (match (uploadLoopGo beh n (a + 1) df).statusSet with
           | some w => some w
           | none => some 0) := by
        simp only [uploadLoopGo]; rw [hb]
      rw [he] at h
      cases hs : (uploadLoopGo beh n (a + 1) df).statusSet with
      | some w =>
        simp only [hs] at h
        injection h with h
        subst h
        exact ih (a + 1) df _ hs
      | none =>
        simp only [hs] at h
        injection h with h
        omega
    | otherErr =>
      have he : (uploadLoopGo beh (n + 1) a df).statusSet = none := by
        simp only [uploadLoopGo]; rw [hb]
      rw [he] at h
      cases h

theorem runUpload_status_inv (allowed : List PyStr) (uBeh : PyStr → Nat → Table → UpOutcome)
    (tgt rel : PyStr) (df : Table) (status : List (PyStr × Nat)) (ups : List UploadRec)
    (hk : tgt ∈ allowed) (h : StatusInv allowed status) :
    StatusInv allowed (stOf (runUpload uBeh tgt rel df status ups)).status := by
  unfold runUpload
  dsimp only
  cases hcr : (uploadLoop (uBeh rel) df).crashed
  · rw [if_neg (by simp)]
    cases hs : (uploadLoop (uBeh rel) df).statusSet with
    | none => simp only [hs]; exact h
    | some v =>
      simp only [hs]
      exact dictSet_inv allowed status tgt v hk
        (uploadLoopGo_statusSet_le (uBeh rel) total_upload_attempts 1 df v hs) h
  · rw [if_pos rfl]
    cases hs : (uploadLoop (uBeh rel) df).statusSet with
    | none => simp only [hs]; exact h
    | some v =>
      simp only [hs]
      exact dictSet_inv allowed status tgt v hk
        (uploadLoopGo_statusSet_le (uBeh rel) total_upload_attempts 1 df v hs) h

theorem runTargets_status_inv (allowed : List PyStr) (weekly : Bool) (verbose : Nat)
    (parseRes : ParseOutcome) (act : PyStr) (uBeh : PyStr → Nat → Table → UpOutcome) :
    ∀ (targets : List (PyStr × PyStr)) (st : RunSt),
      (∀ p ∈ targets, p.1 ∈ allowed) → StatusInv allowed st.status →
      StatusInv allowed (stOf (runTargets weekly verbose parseRes act uBeh targets st)).status := by
  intro targets
  induction targets with
  | nil => intro st _ h; exact h
  | cons p rest ih =>
    intro st hall h
    obtain ⟨tgt, rel⟩ := p
    have htgt : tgt ∈ allowed := hall (tgt, rel) (List.mem_cons_self _ _)
    have hrest : ∀ q ∈ rest, q.1 ∈ allowed := fun q hq => hall q (List.mem_cons_of_mem _ hq)
    simp only [runTargets]
    by_cases hm : levenshtein_dist_ok act tgt tolerable_levenshtein_ratio = true
    · rw [if_pos hm]
      by_cases hw : weekly = true ∧ act ≠ tgt ∧ 1 ≤ verbose
      · rw [if_pos hw]; exact h
      · rw [if_neg hw]
        cases parseRes with
        | ok raw =>
          dsimp only
          cases hru : runUpload uBeh tgt rel (normalize_df raw) st.status st.uploads with
          | crash st2 =>
            have h2 := runUpload_status_inv allowed uBeh tgt rel (normalize_df raw)
              st.status st.uploads htgt h
            rw [hru] at h2
            exact h2
          | ok st2 =>
            have h2 := runUpload_status_inv allowed uBeh tgt rel (normalize_df raw)
              st.status st.uploads htgt h
            rw [hru] at h2
            exact ih st2 hrest h2
        | parseFail =>
          dsimp only
          have hset : StatusInv allowed (dictSet st.status tgt 0) :=
            dictSet_inv allowed st.status tgt 0 htgt (by omega) h
          cases weekly with
          | true => exact ih _ hrest hset
          | false =>
            rw [if_neg (by simp)]
            cases st.dfReg with
            | none => exact hset
            | some d =>
              dsimp only
              cases hru : runUpload uBeh tgt rel d (dictSet st.status tgt 0) st.uploads with
              | crash st2 =>
                have h2 := runUpload_status_inv allowed uBeh tgt rel d
                  (dictSet st.status tgt 0) st.uploads htgt hset
                rw [hru] at h2
                exact h2
              | ok st2 =>
                have h2 := runUpload_status_inv allowed uBeh tgt rel d
                  (dictSet st.status tgt 0) st.uploads htgt hset
                rw [hru] at h2
                exact ih st2 hrest h2
        | processFail cur =>
          dsimp only
          have hset : StatusInv allowed (dictSet st.status tgt 0) :=
            dictSet_inv allowed st.status tgt 0 htgt (by omega) h
          cases weekly with
          | true => exact ih _ hrest hset
          | false =>
            rw [if_neg (by simp)]
            cases hru : runUpload uBeh tgt rel cur (dictSet st.status tgt 0) st.uploads with
            | crash st2 =>
              have h2 := runUpload_status_inv allowed uBeh tgt rel cur
                (dictSet st.status tgt 0) st.uploads htgt hset
              rw [hru] at h2
              exact h2
            | ok st2 =>
              have h2 := runUpload_status_inv allowed uBeh tgt rel cur
                (dictSet st.status tgt 0) st.uploads htgt hset
              rw [hru] at h2
              exact ih st2 hrest h2
    · rw [if_neg hm]
      exact ih st hrest h

theorem runSheets_status_inv (allowed : List PyStr) (weekly : Bool) (verbose : Nat)
    (mapping : List (PyStr × PyStr)) (parseBeh : Nat → ParseOutcome)
    (uBeh : PyStr → Nat → Table → UpOutcome)
    (hall : ∀ p ∈ mapping, p.1 ∈ allowed) :
    ∀ (sheets : List PyStr) (idx : Nat) (st : RunSt), StatusInv allowed st.status →
      StatusInv allowed
        (stOf (runSheets weekly verbose mapping parseBeh uBeh sheets idx st)).status := by
  intro sheets
  induction sheets with
  | nil => intro idx st h; exact h
  | cons act rest ih =>
    intro idx st h
    simp only [runSheets]
    cases hrt : runTargets weekly verbose (parseBeh idx) act uBeh mapping st with
    | ok st2 =>
      have h2 := runTargets_status_inv allowed weekly verbose (parseBeh idx) act uBeh
        mapping st hall h
      rw [hrt] at h2
      exact ih (idx + 1) st2 h2
    | crash st2 =>
      have h2 := runTargets_status_inv allowed weekly verbose (parseBeh idx) act uBeh
        mapping st hall h
      rw [hrt] at h2
      exact h2

theorem sum_le_length_nat (l : List Nat) (h : ∀ x ∈ l, x ≤ 1) : l.sum ≤ l.length := by
  induction l with
  | nil => simp
  | cons x xs ih =>
    simp only [List.sum_cons, List.length_cons]
    have h1 := h x (List.mem_cons_self x xs)
    have h2 := ih fun y hy => h y (List.mem_cons_of_mem x hy)
    omega

theorem sum_eq_length_all_one (l : List Nat) (h : ∀ x ∈ l, x ≤ 1) (hs : l.sum = l.length) :
    ∀ x ∈ l, x = 1 := by
  induction l with
  | nil => intro x hx; simp at hx
  | cons y xs ih =>
    intro x hx
    have h1 := h y (List.mem_cons_self y xs)
    have h2 : xs.sum ≤ xs.length :=
      sum_le_length_nat xs fun z hz => h z (List.mem_cons_of_mem y hz)
    simp only [List.sum_cons, List.length_cons] at hs
    have hy1 : y = 1 := by omega
    have hxs : xs.sum = xs.length := by omega
    rcases List.mem_cons.mp hx with rfl | hx2
    · exact hy1
    · exact ih (fun z hz => h z (List.mem_cons_of_mem y hz)) hxs x hx2

theorem sum_all_one (l : List Nat) (h : ∀ x ∈ l, x = 1) : l.sum = l.length := by
  induction l with
  | nil => rfl
  | cons y xs ih =>
    simp only [List.sum_cons, List.length_cons]
    rw [h y (List.mem_cons_self y xs), ih fun z hz => h z (List.mem_cons_of_mem y hz)]
    omega

theorem dictGet_some_mem_keys (d : List (PyStr × Nat)) (k : PyStr) (v : Nat)
    (h : dictGet d k = some v) : k ∈ d.map fun p => p.1 := by
  induction d with
  | nil => cases h
  | cons q rest ih =>
    rw [List.map_cons]
    unfold dictGet at h
    by_cases hq : q.1 = k
    · subst hq
      exact List.mem_cons_self _ _
    · rw [if_neg hq] at h
      exact List.mem_cons_of_mem _ (ih h)

theorem dictGet_of_mem_nodup (d : List (PyStr × Nat)) (hnd : (d.map fun p => p.1).Nodup)
    (k : PyStr) (v : Nat) (h : (k, v) ∈ d) : dictGet d k = some v := by
  induction d with
  | nil => cases h
  | cons q rest ih =>
    rw [List.map_cons, List.nodup_cons] at hnd
    rcases List.mem_cons.mp h with rfl | h2
    · unfold dictGet
      rw [if_pos rfl]
    · unfold dictGet
      by_cases hq : q.1 = k
      · exfalso
        apply hnd.1
        rw [hq]
        exact List.mem_map.mpr ⟨(k, v), h2, rfl⟩
      · rw [if_neg hq]
        exact ih hnd.2 h2

theorem keys_cover (allowed keys : List PyStr)
    (ha : allowed.Nodup) (hk : keys.Nodup) (hsub : keys ⊆ allowed)
    (hlen : allowed.length ≤ keys.length) : ∀ a ∈ allowed, a ∈ keys := by
  intro a haa
  have h1 : keys.toFinset ⊆ allowed.toFinset := by
    intro x hx
    rw [List.mem_toFinset] at hx ⊢
    exact hsub hx
  have h2 : allowed.toFinset.card ≤ keys.toFinset.card := by
    rw [List.toFinset_card_of_nodup ha, List.toFinset_card_of_nodup hk]
    exact hlen
  have h3 := Finset.eq_of_subset_of_card_le h1 h2
  rw [← List.mem_toFinset, ← h3, List.mem_toFinset] at haa
  exact haa

theorem sum_status_iff (allowed : List PyStr) (d : List (PyStr × Nat))
    (ha : allowed.Nodup) (hinv : StatusInv allowed d) :
    ((d.map fun p => p.2).sum = allowed.length) ↔ ∀ a ∈ allowed, dictGet d a = some 1 := by
  obtain ⟨hnd, hmem⟩ := hinv
  have hvals : ∀ x ∈ d.map fun p => p.2, x ≤ 1 := by
    intro x hx
    obtain ⟨p, hp, hpe⟩ := List.mem_map.mp hx
    rw [← hpe]
    exact (hmem p hp).2
  have hsub : (d.map fun p => p.1) ⊆ allowed := by
    intro x hx
    obtain ⟨p, hp, hpe⟩ := List.mem_map.mp hx
    rw [← hpe]
    exact (hmem p hp).1
  have hdlen : d.length ≤ allowed.length := by
    have h1 := (List.subperm_of_subset hnd hsub).length_le
    rwa [List.length_map] at h1
  constructor
  · intro hsum
    have hlen2 : (d.map fun p => p.2).sum ≤ d.length := by
      have h2 := sum_le_length_nat _ hvals
      rwa [List.length_map] at h2
    have hdeq : d.length = allowed.length := by omega
    have hall1 : ∀ x ∈ d.map fun p => p.2, x = 1 :=
      sum_eq_length_all_one _ hvals (by rw [hsum, List.length_map, hdeq])
    intro a haa
    have hmemk : a ∈ d.map fun p => p.1 := by
      apply keys_cover allowed _ ha hnd hsub _ a haa
      rw [List.length_map]
      omega
    obtain ⟨p, hp, hpe⟩ := List.mem_map.mp hmemk
    have hp1 : p.2 = 1 := hall1 p.2 (List.mem_map.mpr ⟨p, hp, rfl⟩)
    have hget : dictGet d p.1 = some p.2 := dictGet_of_mem_nodup d hnd p.1 p.2 hp
    rw [← hpe, hget, hp1]
  · intro hall
    have h1 : ∀ p ∈ d, p.2 = 1 := by
      intro p hp
      have hga := hall p.1 (hmem p hp).1
      have hgm : dictGet d p.1 = some p.2 := dictGet_of_mem_nodup d hnd p.1 p.2 hp
      rw [hgm] at hga
      injection hga
    have hsub2 : allowed ⊆ d.map fun p => p.1 := by
      intro a haa
      exact dictGet_some_mem_keys d a 1 (hall a haa)
    have hlen3 : allowed.length ≤ d.length := by
      have h2 := (List.subperm_of_subset ha hsub2).length_le
      rwa [List.length_map] at h2
    have hs1 : (d.map fun p => p.2).sum = d.length := by
      have h3 : ∀ x ∈ d.map fun p => p.2, x = 1 := by
        intro x hx
        obtain ⟨p, hp, hpe⟩ := List.mem_map.mp hx
        rw [← hpe]
        exact h1 p hp
      have h4 := sum_all_one _ h3
      rwa [List.length_map] at h4
    omega

/-- C10: the end-of-phase summary.  CORRECTED.  The claim says the summary
reports success exactly when every target relation was loaded and otherwise
lists exactly the failed targets.  The success condition is accurate, but
the failure list is the keys of the status dictionary whose value is 0, and
a target never matched by any tab has no dictionary entry at all, so it is
counted by the success test yet omitted from the list (the printed keys are
also target tab names, not relation names).  This theorem proves the
amended description for a completed phase at verbosity at least 1 over a
mapping with distinct targets: success is reported exactly when every
mapping target has status 1, and a failure report lists exactly the
attempted targets whose final status is 0. -/
theorem c10_summary_amended (weekly : Bool) (verbose : Nat) (mapping : List (PyStr × PyStr))
    (parseBeh : Nat → ParseOutcome) (uBeh : PyStr → Nat → Table → UpOutcome)
    (sheets : List PyStr)
    (hv : 1 ≤ verbose) (hnd : (mapping.map fun p => p.1).Nodup)
    (hok : (runPhase weekly verbose mapping parseBeh uBeh sheets).crashed = false) :
    ((runPhase weekly verbose mapping parseBeh uBeh sheets).summary = some Summary.allLoaded ↔
      ∀ p ∈ mapping,
        dictGet (runPhase weekly verbose mapping parseBeh uBeh sheets).status p.1 = some 1) ∧
    (∀ l, (runPhase weekly verbose mapping parseBeh uBeh sheets).summary
        = some (Summary.someFailed l) →
      l = ((runPhase weekly verbose mapping parseBeh uBeh sheets).status.filter
            fun p => p.2 = 0).map fun p => p.1) := by
  cases hr : runSheets weekly verbose mapping parseBeh uBeh sheets 0 ⟨[], none, []⟩ with
  | crash st =>
    exfalso
    unfold runPhase at hok
    rw [hr] at hok
    simp at hok
  | ok st =>
    have hst : (runPhase weekly verbose mapping parseBeh uBeh sheets).status = st.status := by
      unfold runPhase
      rw [hr]
    have hsum : (runPhase weekly verbose mapping parseBeh uBeh sheets).summary
        = some (mkSummary mapping st.status) := by
      unfold runPhase
      rw [hr]
      dsimp only
      rw [if_pos hv]
    have hinv : StatusInv (mapping.map fun p => p.1) st.status := by
      have h0 : StatusInv (mapping.map fun p => p.1) ([] : List (PyStr × Nat)) :=
        ⟨List.nodup_nil, by intro p hp; cases hp⟩
      have h2 := runSheets_status_inv (mapping.map fun p => p.1) weekly verbose mapping
        parseBeh uBeh (fun p hp => List.mem_map.mpr ⟨p, hp, rfl⟩) sheets 0 ⟨[], none, []⟩ h0
      rw [hr] at h2
      exact h2
    have hiff := sum_status_iff (mapping.map fun p => p.1) st.status hnd hinv
    rw [List.length_map] at hiff
    constructor
    · rw [hsum, hst]
      unfold mkSummary
      by_cases hcond : (st.status.map fun p => p.2).sum = mapping.length
      · rw [if_pos hcond]
        constructor
        · intro _ p hp
          exact (hiff.mp hcond) p.1 (List.mem_map.mpr ⟨p, hp, rfl⟩)
        · intro _
          rfl
      · rw [if_neg hcond]
        constructor
        · intro hfalse
          exfalso
          simp at hfalse
        · intro hallp
          exfalso
          apply hcond
          apply hiff.mpr
          intro a haa
          obtain ⟨p, hp, hpe⟩ := List.mem_map.mp haa
          rw [← hpe]
          exact hallp p hp
    · intro l hl
      rw [hsum] at hl
      unfold mkSummary at hl
      rw [hst]
      by_cases hcond : (st.status.map fun p => p.2).sum = mapping.length
      · rw [if_pos hcond] at hl
        exfalso
        simp at hl
      · rw [if_neg hcond] at hl
        have h2 := Option.some.inj hl
        injection h2 with h3
        exact h3.symm

/-- C10 witness: the weekly mapping with both tabs present and every upload
succeeding completes without crash, and the amended summary equivalence
holds for it. -/
theorem c10_summary_witness :
    ((1 : Nat) ≤ 1) ∧
    ((weekly_tab_to_bq_relation_dict.map fun p => p.1).Nodup) ∧
    ((runPhase true 1 weekly_tab_to_bq_relation_dict parseC upSucc
        ["LTCF".toList, "ALR".toList]).crashed = false) ∧
    (((runPhase true 1 weekly_tab_to_bq_relation_dict parseC upSucc
        ["LTCF".toList, "ALR".toList]).summary = some Summary.allLoaded ↔
      ∀ p ∈ weekly_tab_to_bq_relation_dict,
        dictGet (runPhase true 1 weekly_tab_to_bq_relation_dict parseC upSucc
          ["LTCF".toList, "ALR".toList]).status p.1 = some 1) ∧
     (∀ l, (runPhase true 1 weekly_tab_to_bq_relation_dict parseC upSucc
          ["LTCF".toList, "ALR".toList]).summary = some (Summary.someFailed l) →
       l = ((runPhase true 1 weekly_tab_to_bq_relation_dict parseC upSucc
              ["LTCF".toList, "ALR".toList]).status.filter
            fun p => p.2 = 0).map fun p => p.1)) :=
  ⟨le_refl 1, by decide, by decide,
   c10_summary_amended true 1 weekly_tab_to_bq_relation_dict parseC upSucc
     ["LTCF".toList, "ALR".toList] (le_refl 1) (by decide) (by decide)⟩

/-- C10 counterexample: with only the tab aaaa present, target bbbb of the
mapping is never matched, so its relation rb is not loaded; the phase
reports failure but lists NO failed target at all, contradicting the
claimed exact listing of the failed relations. -/
theorem c10_summary_cex :
    (runPhase false 1 mapAB parseC upSucc ["aaaa".toList]).summary
      = some (Summary.someFailed []) ∧
    dictGet (runPhase false 1 mapAB parseC upSucc ["aaaa".toList]).status ("bbbb".toList)
      = none := by
  decide

theorem c9_parse_fallthrough_witness :
    (levenshtein_dist_ok ("aaaa".toList) ("aaaa".toList) tolerable_levenshtein_ratio = true) ∧
    (((stOf (runTargets false 0 ParseOutcome.parseFail ("aaaa".toList) upSucc
        [("aaaa".toList, "rr".toList)] ⟨[], some tableC, []⟩)).uploads
      = [] ++ [⟨"rr".toList, (uploadLoop (upSucc ("rr".toList)) tableC).dfs,
          (uploadLoop (upSucc ("rr".toList)) tableC).casts⟩]) ∧
     ((uploadLoop (upSucc ("rr".toList)) tableC).dfs.head? = some tableC) ∧
     (runTargets false 0 ParseOutcome.parseFail ("aaaa".toList) upSucc
        [("aaaa".toList, "rr".toList)] ⟨[], none, []⟩
      = StepRes.crash ⟨dictSet [] ("aaaa".toList) 0, none, []⟩) ∧
     (∀ dfr : Option Table,
       (stOf (runTargets false 0 (ParseOutcome.processFail tableC) ("aaaa".toList) upSucc
         [("aaaa".toList, "rr".toList)] ⟨[], dfr, []⟩)).uploads
       = [] ++ [⟨"rr".toList, (uploadLoop (upSucc ("rr".toList)) tableC).dfs,
           (uploadLoop (upSucc ("rr".toList)) tableC).casts⟩]) ∧
     ((uploadLoop (upSucc ("rr".toList)) tableC).dfs.head? = some tableC)) :=
  ⟨by decide,
   c9_parse_fallthrough 0 ("aaaa".toList) ("aaaa".toList) ("rr".toList) upSucc [] [] tableC
     tableC (by decide)⟩

end CovidETL
